import Mathlib

/-!
Verification development for the message-processing core of the
whatsapp-ai-agent repository (`src/data_processor.py`, class `DataProcessor`).

Strings are embedded as `List Char` (Python `str` is a sequence of Unicode
code points).  Character classes of Python's `re` module (with `str`
patterns) are embedded as decidable predicates on `Char`; the word-character
class `\w` is modelled over the scripts that actually occur in the program
(ASCII letters, digits, underscore, and Cyrillic), as noted at the
definition.  The OpenAI client is modelled as an optional oracle, and the
per-row columns that `process_messages` adds through pandas are derived
directly from the parsed timestamp, as noted at the definitions.
-/

namespace DataProcessor

/-- Python whitespace class `\s` (= the characters for which `str.isspace()`
holds): ASCII whitespace, the C1 separators, NEL, NBSP and the Unicode
space separators. -/
def pyIsSpace (c : Char) : Bool :=
  c.toNat = 0x20 || c.toNat = 0x09 || c.toNat = 0x0A || c.toNat = 0x0D ||
  c.toNat = 0x0B || c.toNat = 0x0C ||
  (0x1C ≤ c.toNat && c.toNat ≤ 0x1F) ||
  c.toNat = 0x85 || c.toNat = 0xA0 ||
  c.toNat = 0x1680 || (0x2000 ≤ c.toNat && c.toNat ≤ 0x200A) ||
  c.toNat = 0x2028 || c.toNat = 0x2029 || c.toNat = 0x202F ||
  c.toNat = 0x205F || c.toNat = 0x3000

/-- Python word-character class `\w`: letters, digits and underscore.
Modelled over the scripts occurring in this program: ASCII alphanumerics,
underscore, and the Cyrillic block U+0400 to U+04FF. -/
def pyIsWordChar (c : Char) : Bool :=
  (0x61 ≤ c.toNat && c.toNat ≤ 0x7A) ||
  (0x41 ≤ c.toNat && c.toNat ≤ 0x5A) ||
  (0x30 ≤ c.toNat && c.toNat ≤ 0x39) ||
  c.toNat = 0x5F ||
  (0x400 ≤ c.toNat && c.toNat ≤ 0x4FF)

/-- The 27 punctuation characters that `clean_text` keeps
(`data_processor.py` line 22), by code point:
period, comma, exclamation mark, question mark, hyphen, colon, semicolon,
round, square and curly brackets, double and single quote, slash, at sign,
hash, dollar, percent, caret, ampersand, asterisk, plus, equals, tilde,
grave accent. -/
def allowedPunct : List Nat :=
  [0x2E, 0x2C, 0x21, 0x3F, 0x2D, 0x3A, 0x3B, 0x28, 0x29, 0x5B, 0x5D,
   0x7B, 0x7D, 0x22, 0x27, 0x2F, 0x40, 0x23, 0x24, 0x25, 0x5E, 0x26,
   0x2A, 0x2B, 0x3D, 0x7E, 0x60]

/-- A character survives the second `re.sub` of `clean_text`
(the pattern is the negation of `[\w\s]` plus `allowedPunct`). -/
def keepChar (c : Char) : Bool :=
  pyIsWordChar c || pyIsSpace c || allowedPunct.contains c.toNat

/-- Python `str.strip()`: drop leading and trailing whitespace. -/
def pyStrip (l : List Char) : List Char :=
  ((l.dropWhile pyIsSpace).reverse.dropWhile pyIsSpace).reverse

/-- Embedding of `re.sub(r'\s+', ' ', text)`: replace every maximal run of whitespace
characters by a single space.  Written by structural recursion on the list
(a run's space is emitted at the run's last character). -/
def collapseWs : List Char → List Char
  | [] => []
  | [c] => if pyIsSpace c then [' '] else [c]
  | a :: b :: rest =>
    if pyIsSpace a then
      if pyIsSpace b then collapseWs (b :: rest)
      else ' ' :: collapseWs (b :: rest)
    else a :: collapseWs (b :: rest)

/-- Embedding of `DataProcessor.clean_text` (lines 13-24): empty in, empty out;
otherwise strip, collapse whitespace runs, and drop disallowed characters. -/
def clean_text (l : List Char) : List Char :=
  if l = [] then []
  else (collapseWs (pyStrip l)).filter keepChar

/-- Python `str.lower()` over the modelled scripts: ASCII A-Z,
Cyrillic А-Я (U+0410 to U+042F) and Ё (U+0401). -/
def pyToLower (c : Char) : Char :=
  if (0x41 ≤ c.toNat && c.toNat ≤ 0x5A) || (0x410 ≤ c.toNat && c.toNat ≤ 0x42F)
  then Char.ofNat (c.toNat + 0x20)
  else if c.toNat = 0x401 then Char.ofNat 0x451
  else c

/-- The letter class `[a-zA-Zа-яА-Я]` of `extract_keywords` (line 29). -/
def isKwLetter (c : Char) : Bool :=
  (0x61 ≤ c.toNat && c.toNat ≤ 0x7A) ||
  (0x41 ≤ c.toNat && c.toNat ≤ 0x5A) ||
  (0x430 ≤ c.toNat && c.toNat ≤ 0x44F) ||
  (0x410 ≤ c.toNat && c.toNat ≤ 0x42F)

/-- The maximal runs of word characters of a text, in order.  Because `\b`
boundaries exist exactly at the edges of such runs, `re.findall` with the
pattern `\b[a-zA-Zа-яА-Я]{3,}\b` returns exactly the maximal word-character
runs that consist of class letters only and have length at least 3
(a run touching a digit, underscore or other-script word character yields
no match at all, for lack of an inner boundary). -/
def wordRuns : List Char → List (List Char)
  | [] => []
  | [c] => if pyIsWordChar c then [[c]] else []
  | a :: b :: rest =>
    let tailRuns := wordRuns (b :: rest)
    if pyIsWordChar a then
      if pyIsWordChar b then
        -- `a` extends the run that starts at `b` (that run is never absent)
        match tailRuns with
        | [] => [[a]]
        | r :: rs => (a :: r) :: rs
      else [a] :: tailRuns
    else tailRuns

/-- The stop-word set of `extract_keywords` (line 32). -/
def stop_words : List (List Char) :=
  ["это".data, "как".data, "что".data, "когда".data, "где".data,
   "почему".data, "который".data, "для".data, "с".data, "на".data,
   "и".data, "в".data, "не".data, "по".data, "к".data, "у".data,
   "от".data, "до".data, "о".data, "об".data, "при".data, "за".data,
   "так".data, "же".data, "быть".data, "был".data, "была".data,
   "было".data, "будет".data, "есть".data, "are".data, "the".data,
   "is".data, "at".data, "which".data, "on".data, "and".data, "or".data,
   "but".data, "in".data, "with".data, "to".data, "for".data, "of".data,
   "as".data, "by".data, "that".data, "this".data, "it".data, "from".data]

/-- Embedding of `DataProcessor.extract_keywords` (lines 26-36): tokens of at least 3
Latin or Cyrillic letters from the lower-cased text, stop words and short
words dropped, the first 10 kept, then de-duplicated.  Python's
`list(set(...))` iterates in an unspecified order; the embedding fixes
first-occurrence order, which the claims (cardinality, distinctness) do
not depend on. -/
def extract_keywords (text : List Char) : List (List Char) :=
  let words := (wordRuns (text.map pyToLower)).filter
    (fun r => r.all isKwLetter && decide (3 ≤ r.length))
  let keywords := words.filter
    (fun w => !(stop_words.contains w) && decide (2 < w.length))
  (keywords.take 10).dedup

/-- Tests whether `kw` is a prefix of `text` (auxiliary for Python's `in`
operator). -/
def prefixAt : List Char → List Char → Bool
  | [], _ => true
  | _ :: _, [] => false
  | a :: ks, b :: ts => a == b && prefixAt ks ts

/-- Python's substring test `kw in text`. -/
def containsSub (text kw : List Char) : Bool :=
  match text with
  | [] => kw.isEmpty
  | _ :: rest => prefixAt kw text || containsSub rest kw

/-- The category dict of `categorize_message` (lines 42-50), in its
declaration (= iteration) order. -/
def categories : List (List Char × List (List Char)) :=
  [("Продажи/Реклама".data,
    ["купить".data, "продать".data, "цена".data, "скидка".data,
     "акция".data, "предложение".data, "buy".data, "sell".data,
     "price".data, "discount".data]),
   ("Вопросы".data,
    ["?".data, "как".data, "почему".data, "когда".data, "где".data,
     "что".data, "кто".data, "why".data, "when".data, "where".data,
     "what".data, "who".data]),
   ("Информация/Новости".data,
    ["новость".data, "информация".data, "обновление".data, "важно".data,
     "news".data, "information".data, "update".data, "important".data]),
   ("Общение/Чат".data,
    ["привет".data, "здравствуйте".data, "спасибо".data, "пока".data,
     "hello".data, "hi".data, "thanks".data, "bye".data]),
   ("Ссылки/Медиа".data,
    ["http".data, "www".data, ".com".data, ".ru".data, "ссылка".data,
     "link".data, "video".data, "photo".data]),
   ("Работа/Бизнес".data,
    ["работа".data, "проект".data, "задача".data, "дедлайн".data,
     "work".data, "project".data, "task".data, "deadline".data]),
   ("Другое".data, [])]

/-- A category entry matches the lower-cased text if any of its keywords is
a substring of it (line 53). -/
def catMatches (tl : List Char) (p : List Char × List (List Char)) : Bool :=
  p.2.any fun kw => containsSub tl kw

/-- Embedding of `DataProcessor.categorize_message` (lines 38-56): first matching
category in declaration order, default "Другое". -/
def categorize_message (text : List Char) : List Char :=
  let tl := text.map pyToLower
  match categories.find? (catMatches tl) with
  | some p => p.1
  | none => "Другое".data

/-- The three labels the sentiment prompt asks for (line 75). -/
def sentimentLabels : List (List Char) :=
  ["Позитивная".data, "Негативная".data, "Нейтральная".data]

/-- The OpenAI chat-completion call, modelled as an oracle from the user
text to either a response content (`Except.ok`) or a raised exception
(`Except.error`).  `none` models an unconfigured client (no API key,
line 10). -/
abbrev SentimentClient :=
  Option (List Char → Except (List Char) (List Char))

/-- Embedding of `DataProcessor.analyze_sentiment` (lines 58-79).  The second component
counts the external requests issued (0 or 1), so that the no-call contract
of the unconfigured case is statable. -/
def analyze_sentiment (client : SentimentClient) (text : List Char) :
    List Char × Nat :=
  match client with
  | none => ("Не определено".data, 0)
  | some f =>
    match f text with
    | Except.error _ => ("Не определено".data, 1)
    | Except.ok r =>
      let s := pyStrip r
      (if sentimentLabels.contains s then s else "Нейтральная".data, 1)

/-- A parsed `datetime` (the fields this program uses). -/
structure PyDateTime where
  year : Nat
  month : Nat
  day : Nat
  hour : Nat
  minute : Nat
  second : Nat
deriving DecidableEq, Repr

/-- Value of an ASCII digit. -/
def digitVal (c : Char) : Option Nat :=
  if 0x30 ≤ c.toNat ∧ c.toNat ≤ 0x39 then some (c.toNat - 0x30) else none

/-- Read exactly `n` decimal digits into the accumulator. -/
def readNDigits : Nat → Nat → List Char → Option (Nat × List Char)
  | 0, acc, l => some (acc, l)
  | n + 1, acc, l =>
    match l with
    | [] => none
    | c :: rest =>
      match digitVal c with
      | none => none
      | some d => readNDigits n (10 * acc + d) rest

/-- Gregorian leap-year rule. -/
def isLeapYear (y : Nat) : Bool :=
  y % 4 = 0 && (y % 100 ≠ 0 || y % 400 = 0)

/-- Length of month `m` in year `y`. -/
def daysInMonth (y m : Nat) : Nat :=
  if m = 2 then (if isLeapYear y then 29 else 28)
  else if m = 4 || m = 6 || m = 9 || m = 11 then 30
  else 31

/-- Optional `:MM[:SS]` tail of the time part. -/
def parseMinSec (r : List Char) : Option (Nat × Nat) :=
  match r with
  | [] => some (0, 0)
  | c :: rest =>
    if c.toNat ≠ 0x3A then none else
    match readNDigits 2 0 rest with
    | none => none
    | some (mi, r2) =>
      match r2 with
      | [] => some (mi, 0)
      | c2 :: rest2 =>
        if c2.toNat ≠ 0x3A then none else
        match readNDigits 2 0 rest2 with
        | none => none
        | some (s, r3) => if r3 = [] then some (mi, s) else none

/-- Embedding of `datetime.fromisoformat`, modelled on the subset of ISO-8601 this
program produces and consumes: `YYYY-MM-DD`, optionally followed by one
separator character and `HH[:MM[:SS]]` (no fractional seconds or timezone
offsets in the model).  Returns `none` where Python raises `ValueError`. -/
def fromisoformat (l : List Char) : Option PyDateTime :=
  match readNDigits 4 0 l with
  | none => none
  | some (y, r1) =>
  match r1 with
  | [] => none
  | c1 :: r2 =>
  if c1.toNat ≠ 0x2D then none else
  match readNDigits 2 0 r2 with
  | none => none
  | some (mo, r3) =>
  match r3 with
  | [] => none
  | c2 :: r4 =>
  if c2.toNat ≠ 0x2D then none else
  match readNDigits 2 0 r4 with
  | none => none
  | some (d, r5) =>
  if ¬ (1 ≤ y ∧ 1 ≤ mo ∧ mo ≤ 12 ∧ 1 ≤ d ∧ d ≤ daysInMonth y mo) then none
  else
  match r5 with
  | [] => some ⟨y, mo, d, 0, 0, 0⟩
  | _sep :: rt =>
    match readNDigits 2 0 rt with
    | none => none
    | some (h, r6) =>
      match parseMinSec r6 with
      | none => none
      | some (mi, s) =>
        if h ≤ 23 ∧ mi ≤ 59 ∧ s ≤ 59 then some ⟨y, mo, d, h, mi, s⟩
        else none

/-- Zero-padded decimal of width `w` (as `strftime`'s `%Y`, `%m`, `%d`,
`%H`, `%M` print the values arising here). -/
def padNum (w n : Nat) : List Char :=
  let s := Nat.toDigits 10 n
  List.replicate (w - s.length) '0' ++ s

/-- Embedding of `strftime("%Y-%m-%d")`. -/
def formatDate (dt : PyDateTime) : List Char :=
  padNum 4 dt.year ++ ['-'] ++ padNum 2 dt.month ++ ['-'] ++ padNum 2 dt.day

/-- Embedding of `strftime("%H:%M")`. -/
def formatHM (dt : PyDateTime) : List Char :=
  padNum 2 dt.hour ++ [':'] ++ padNum 2 dt.minute

/-- Days before month `m` in year `y`. -/
def daysBeforeMonth (y m : Nat) : Nat :=
  (List.range (m - 1)).foldl (fun acc i => acc + daysInMonth y (i + 1)) 0

/-- Proleptic-Gregorian day number of a date (1 for 0001-01-01). -/
def dayNumber (dt : PyDateTime) : Nat :=
  (365 * (dt.year - 1) + (dt.year - 1) / 4 + (dt.year - 1) / 400)
    - (dt.year - 1) / 100 + daysBeforeMonth dt.year dt.month + dt.day

/-- English weekday names as produced by `pandas.Series.dt.day_name()`. -/
def weekdayNames : List (List Char) :=
  ["Monday".data, "Tuesday".data, "Wednesday".data, "Thursday".data,
   "Friday".data, "Saturday".data, "Sunday".data]

/-- Weekday of the parsed date (0001-01-01 is a Monday in the proleptic
Gregorian calendar). -/
def dayName (dt : PyDateTime) : List Char :=
  weekdayNames.getD ((dayNumber dt - 1) % 7) []

/-- A raw message dict as consumed by `process_messages`: a `None`-valued
or absent key is `none`. -/
structure RawMessage where
  message_id : Option (List Char) := none
  author : Option (List Char) := none
  text : Option (List Char) := none
  timestamp : Option (List Char) := none
  type : Option (List Char) := none
deriving DecidableEq, Repr

/-- One row of the DataFrame built by `process_messages`, including the two
derived pandas columns.  Field-to-column map: `message_id` = ID сообщения,
`author` = Автор, `text` = Текст сообщения, `original_text` =
Оригинальный текст, `time` = Время, `msg_type` = Тип сообщения,
`category` = Категория, `keywords` = Ключевые слова, `sentiment` =
Тональность, `msg_length` = Длина сообщения, `date` = Дата,
`time_of_day` = Время суток, `day_of_week` = День недели, `hour` = Час. -/
structure ProcessedRecord where
  message_id : Option (List Char)
  author : Option (List Char)
  text : List Char
  original_text : List Char
  time : Option (List Char)
  msg_type : Option (List Char)
  category : List Char
  keywords : List Char
  sentiment : List Char
  msg_length : Nat
  date : List Char
  time_of_day : List Char
  day_of_week : List Char
  hour : Nat
deriving DecidableEq, Repr

/-- The loop body of `process_messages` (lines 85-104) for one message,
together with the per-row derived columns of lines 109-111 (pandas
re-parses the `strftime`-formatted Дата and Время суток strings, which is
lossless, so День недели and Час are derived directly from the parsed
timestamp).  `now` models `datetime.now().isoformat()`, the default used
when the timestamp key is absent.  `Except.error` models the `ValueError`
raised by `datetime.fromisoformat` on an unparseable timestamp string. -/
def build_record (client : SentimentClient) (now : List Char)
    (m : RawMessage) : Except (List Char) ProcessedRecord :=
  let text := m.text.getD []
  let cleaned := clean_text text
  match fromisoformat (m.timestamp.getD now) with
  | none => Except.error "ValueError: Invalid isoformat string".data
  | some dt =>
    Except.ok
      { message_id := m.message_id
        author := m.author
        text := cleaned
        original_text := text
        time := m.timestamp
        msg_type := m.type
        category := categorize_message cleaned
        keywords := List.intercalate ", ".data (extract_keywords cleaned)
        sentiment := (analyze_sentiment client cleaned).1
        msg_length := cleaned.length
        date := formatDate dt
        time_of_day := formatHM dt
        day_of_week := dayName dt
        hour := dt.hour }

/-- Embedding of `DataProcessor.process_messages` (lines 81-113): one record per message
in order; an unparseable timestamp raises out of the loop, so the whole
batch fails with no output at all. -/
def process_messages (client : SentimentClient) (now : List Char)
    (messages : List RawMessage) : Except (List Char) (List ProcessedRecord) :=
  messages.mapM (build_record client now)

/-- Embedding of `pandas.Series.value_counts().to_dict()` over a null-free column: the
exact count of each distinct value.  pandas orders by descending count;
the embedding keeps first-occurrence order, on which no claim depends. -/
def countValues (xs : List (List Char)) : List (List Char × Nat) :=
  xs.dedup.map fun v => (v, xs.count v)

/-- Embedding of `value_counts` over the integer hour column. -/
def countValuesNat (xs : List Nat) : List (Nat × Nat) :=
  xs.dedup.map fun v => (v, xs.count v)

/-- Embedding of `df["Автор"].value_counts().head(5)`: null authors dropped (pandas
excludes NaN), counts sorted descending, top 5. -/
def topAuthors (xs : List (Option (List Char))) : List (List Char × Nat) :=
  let vals := xs.filterMap id
  ((vals.dedup.map fun v => (v, vals.count v)).insertionSort
    (fun a b => b.2 ≤ a.2)).take 5

/-- The summary dict of `generate_summary`.  Key map: `total_messages` =
Всего сообщений, `unique_authors` = Уникальных авторов, `avg_length` =
Средняя длина сообщения, `top_authors` = Самые активные авторы,
`category_dist` = Популярные категории, `sentiment_dist` = Распределение
тональности, `by_hour` = Сообщения по часам, `by_weekday` = Сообщения по
дням недели. -/
structure SummaryStatistics where
  total_messages : Nat
  unique_authors : Nat
  avg_length : ℚ
  top_authors : List (List Char × Nat)
  category_dist : List (List Char × Nat)
  sentiment_dist : List (List Char × Nat)
  by_hour : List (Nat × Nat)
  by_weekday : List (List Char × Nat)
deriving DecidableEq, Repr

/-- Embedding of `DataProcessor.generate_summary` (lines 115-131); the empty dict
returned for an empty frame is modelled as `none`, and the float mean as
an exact rational. -/
def generate_summary (records : List ProcessedRecord) :
    Option SummaryStatistics :=
  if records = [] then none
  else some
    { total_messages := records.length
      unique_authors := ((records.map (·.author)).filterMap id).dedup.length
      avg_length :=
        ((records.map (·.msg_length)).sum : ℚ) / (records.length : ℚ)
      top_authors := topAuthors (records.map (·.author))
      category_dist := countValues (records.map (·.category))
      sentiment_dist := countValues (records.map (·.sentiment))
      by_hour := countValuesNat (records.map (·.hour))
      by_weekday := countValues (records.map (·.day_of_week)) }

/-! ### Properties of the text-normalization pipeline -/

/-- No two adjacent characters are both whitespace. -/
def NoAdjWs (l : List Char) : Prop :=
  List.Chain' (fun a b => ¬(pyIsSpace a = true ∧ pyIsSpace b = true)) l

/-- The fully-normalized strings: every character survives the filter, all
whitespace is a plain space, no two adjacent whitespace characters, and
neither end is whitespace.  These are exactly the fixed points that two
applications of `clean_text` reach. -/
def CleanNF (l : List Char) : Prop :=
  (∀ c ∈ l, keepChar c = true) ∧
  (∀ c ∈ l, pyIsSpace c = true → c = ' ') ∧
  NoAdjWs l ∧
  (∀ c, l.head? = some c → pyIsSpace c = false) ∧
  (∀ c, l.getLast? = some c → pyIsSpace c = false)

/-! ### Concrete inputs used by the scenario claims -/

/-- The raw message of the specification's scenario. -/
def scenarioMsg : RawMessage :=
  { message_id := some "1".data
    author := some "Anna".data
    text := some "Hello, how are you? http://x.com".data
    timestamp := some "2024-01-15T14:30:00".data }

/-- A fixed current time, standing for `datetime.now().isoformat()` where
one is needed. -/
def now0 : List Char := "2024-06-01T12:00:00".data

/-- A message carrying neither an author nor a text key. -/
def anonymousMsg : RawMessage :=
  { timestamp := some "2024-01-15T14:30:00".data }

/-- A message whose timestamp key is present but not ISO-8601. -/
def badTsMsg : RawMessage :=
  { author := some "Bob".data
    text := some "hi there".data
    timestamp := some "yesterday evening".data }

/-- A sentiment oracle that always raises. -/
def raisingClient : List Char → Except (List Char) (List Char) :=
  fun _ => Except.error "APIConnectionError".data

/-- A sentiment oracle that answers with text outside the label set. -/
def chattyClient : List Char → Except (List Char) (List Char) :=
  fun _ => Except.ok " Позитивная, я думаю ".data

/-- A record as a one-element batch produces it, for the C10 witness. -/
def sampleRecord : ProcessedRecord :=
  { message_id := some "1".data
    author := some "Anna".data
    text := "hi".data
    original_text := "hi".data
    time := some "2024-01-15T14:30:00".data
    msg_type := none
    category := "Общение/Чат".data
    keywords := []
    sentiment := "Не определено".data
    msg_length := 2
    date := "2024-01-15".data
    time_of_day := "14:30".data
    day_of_week := "Monday".data
    hour := 14 }

theorem collapseWs_mem {l : List Char} {c : Char} (h : c ∈ collapseWs l) :
    c = ' ' ∨ c ∈ l := by
  induction l using collapseWs.induct with
  | case1 => simp [collapseWs] at h
  | case2 d hws =>
    simp only [collapseWs, if_pos hws, List.mem_singleton] at h
    exact Or.inl h
  | case3 d hws =>
    simp only [collapseWs, if_neg hws, List.mem_singleton] at h
    exact Or.inr (by simp [h])
  | case4 a b rest hwa hwb ih =>
    simp only [collapseWs, if_pos hwa, if_pos hwb] at h
    rcases ih h with h' | h'
    · exact Or.inl h'
    · exact Or.inr (List.mem_cons_of_mem a h')
  | case5 a b rest hwa hwb ih =>
    simp only [collapseWs, if_pos hwa, if_neg hwb, List.mem_cons] at h
    rcases h with h' | h'
    · exact Or.inl h'
    · rcases ih h' with h'' | h''
      · exact Or.inl h''
      · exact Or.inr (List.mem_cons_of_mem a h'')
  | case6 a b rest hwa ih =>
    simp only [collapseWs, if_neg hwa, List.mem_cons] at h
    rcases h with h' | h'
    · exact Or.inr (by simp [h'])
    · rcases ih h' with h'' | h''
      · exact Or.inl h''
      · exact Or.inr (List.mem_cons_of_mem a h'')

theorem collapseWs_ws_eq_space {l : List Char} {c : Char}
    (h : c ∈ collapseWs l) (hws : pyIsSpace c = true) : c = ' ' := by
  induction l using collapseWs.induct with
  | case1 => simp [collapseWs] at h
  | case2 d hd =>
    simp only [collapseWs, if_pos hd, List.mem_singleton] at h
    exact h
  | case3 d hd =>
    simp only [collapseWs, if_neg hd, List.mem_singleton] at h
    subst h; simp [hd] at hws
  | case4 a b rest hwa hwb ih =>
    simp only [collapseWs, if_pos hwa, if_pos hwb] at h
    exact ih h
  | case5 a b rest hwa hwb ih =>
    simp only [collapseWs, if_pos hwa, if_neg hwb, List.mem_cons] at h
    rcases h with h' | h'
    · exact h'
    · exact ih h'
  | case6 a b rest hwa ih =>
    simp only [collapseWs, if_neg hwa, List.mem_cons] at h
    rcases h with h' | h'
    · subst h'; simp [hwa] at hws
    · exact ih h'

theorem collapseWs_ne_nil {l : List Char} (h : l ≠ []) :
    collapseWs l ≠ [] := by
  induction l using collapseWs.induct with
  | case1 => exact absurd rfl h
  | case2 d hd => simp [collapseWs, if_pos hd]
  | case3 d hd => simp [collapseWs, if_neg hd]
  | case4 a b rest hwa hwb ih =>
    simpa [collapseWs, if_pos hwa, if_pos hwb] using ih (by simp)
  | case5 a b rest hwa hwb ih =>
    simp [collapseWs, if_pos hwa, if_neg hwb]
  | case6 a b rest hwa ih =>
    simp [collapseWs, if_neg hwa]

theorem collapseWs_head {l : List Char} {c : Char} (hh : l.head? = some c)
    (hc : pyIsSpace c = false) : (collapseWs l).head? = some c := by
  match l with
  | [] => simp at hh
  | [d] =>
    simp only [List.head?_cons, Option.some_inj] at hh
    subst hh
    simp [collapseWs, hc]
  | a :: b :: rest =>
    simp only [List.head?_cons, Option.some_inj] at hh
    subst hh
    simp [collapseWs, hc]

theorem collapseWs_chain (l : List Char) : NoAdjWs (collapseWs l) := by
  induction l using collapseWs.induct with
  | case1 => exact List.chain'_nil
  | case2 d hd =>
    simp only [collapseWs, if_pos hd]
    exact List.chain'_singleton _
  | case3 d hd =>
    simp only [collapseWs, if_neg hd]
    exact List.chain'_singleton _
  | case4 a b rest hwa hwb ih =>
    simpa [collapseWs, if_pos hwa, if_pos hwb] using ih
  | case5 a b rest hwa hwb ih =>
    simp only [collapseWs, if_pos hwa, if_neg hwb]
    refine List.chain'_cons'.mpr ⟨?_, ih⟩
    intro y hy
    have := collapseWs_head (l := b :: rest) (c := b) (by simp)
      (by simpa using hwb)
    rw [this] at hy
    simp only [Option.mem_def, Option.some_inj] at hy
    subst hy
    intro hcon
    exact absurd hcon.2 (by simp [hwb])
  | case6 a b rest hwa ih =>
    simp only [collapseWs, if_neg hwa]
    refine List.chain'_cons'.mpr ⟨?_, ih⟩
    intro y _ hcon
    exact absurd hcon.1 (by simp [hwa])

theorem getLast?_cons_of_ne_nil {α : Type} {m : List α} (x : α)
    (h : m ≠ []) : (x :: m).getLast? = m.getLast? := by
  match m with
  | [] => exact absurd rfl h
  | y :: t => exact List.getLast?_cons_cons

theorem collapseWs_last {l : List Char}
    (hl : ∀ c, l.getLast? = some c → pyIsSpace c = false) :
    ∀ c, (collapseWs l).getLast? = some c → pyIsSpace c = false := by
  induction l using collapseWs.induct with
  | case1 => intro c hc; simp [collapseWs] at hc
  | case2 d hd =>
    intro c hc
    exact absurd (hl d (by simp)) (by simp [hd])
  | case3 d hd =>
    intro c hc
    simp only [collapseWs, if_neg hd, List.getLast?_singleton,
      Option.some_inj] at hc
    subst hc; simpa using hd
  | case4 a b rest hwa hwb ih =>
    intro c hc
    simp only [collapseWs, if_pos hwa, if_pos hwb] at hc
    exact ih (fun d hd => hl d (by rwa [List.getLast?_cons_cons])) c hc
  | case5 a b rest hwa hwb ih =>
    intro c hc
    simp only [collapseWs, if_pos hwa, if_neg hwb] at hc
    rw [getLast?_cons_of_ne_nil _ (collapseWs_ne_nil (by simp))] at hc
    exact ih (fun d hd => hl d (by rwa [List.getLast?_cons_cons])) c hc
  | case6 a b rest hwa ih =>
    intro c hc
    simp only [collapseWs, if_neg hwa] at hc
    rw [getLast?_cons_of_ne_nil _ (collapseWs_ne_nil (by simp))] at hc
    exact ih (fun d hd => hl d (by rwa [List.getLast?_cons_cons])) c hc

theorem collapseWs_eq_self {l : List Char}
    (hws : ∀ c ∈ l, pyIsSpace c = true → c = ' ')
    (hch : NoAdjWs l) : collapseWs l = l := by
  induction l using collapseWs.induct with
  | case1 => rfl
  | case2 d hd =>
    simp only [collapseWs, if_pos hd]
    rw [hws d (by simp) hd]
  | case3 d hd => simp [collapseWs, if_neg hd]
  | case4 a b rest hwa hwb ih =>
    exfalso
    have := List.chain'_cons'.mp hch
    exact this.1 b (by simp) ⟨hwa, hwb⟩
  | case5 a b rest hwa hwb ih =>
    simp only [collapseWs, if_pos hwa, if_neg hwb]
    rw [ih (fun c hc => hws c (List.mem_cons_of_mem a hc))
      (List.chain'_cons'.mp hch).2]
    rw [hws a (by simp) hwa]
  | case6 a b rest hwa ih =>
    simp only [collapseWs, if_neg hwa]
    rw [ih (fun c hc => hws c (List.mem_cons_of_mem a hc))
      (List.chain'_cons'.mp hch).2]

theorem collapseWs_length (l : List Char) :
    (collapseWs l).length ≤ l.length := by
  induction l using collapseWs.induct with
  | case1 => simp [collapseWs]
  | case2 d hd => simp [collapseWs, if_pos hd]
  | case3 d hd => simp [collapseWs, if_neg hd]
  | case4 a b rest hwa hwb ih =>
    simp only [collapseWs, if_pos hwa, if_pos hwb]
    exact le_trans ih (by simp)
  | case5 a b rest hwa hwb ih =>
    simp only [collapseWs, if_pos hwa, if_neg hwb, List.length_cons]
    exact Nat.succ_le_succ ih
  | case6 a b rest hwa ih =>
    simp only [collapseWs, if_neg hwa, List.length_cons]
    exact Nat.succ_le_succ ih

theorem head?_dropWhile {p : Char → Bool} {l : List Char} {c : Char}
    (h : (l.dropWhile p).head? = some c) : p c = false := by
  induction l with
  | nil => simp at h
  | cons a t ih =>
    by_cases ha : p a
    · rw [List.dropWhile_cons_of_pos ha] at h
      exact ih h
    · rw [List.dropWhile_cons_of_neg ha] at h
      simp only [List.head?_cons, Option.some_inj] at h
      subst h
      exact Bool.not_eq_true _ ▸ (by simpa using ha)

theorem getLast?_dropWhile {p : Char → Bool} {l : List Char}
    (h : l.dropWhile p ≠ []) : (l.dropWhile p).getLast? = l.getLast? := by
  induction l with
  | nil => simp at h
  | cons a t ih =>
    by_cases ha : p a
    · rw [List.dropWhile_cons_of_pos ha] at h ⊢
      rw [ih h, getLast?_cons_of_ne_nil a (fun ht => h (by simp [ht]))]
    · rw [List.dropWhile_cons_of_neg ha]

theorem dropWhile_eq_self {p : Char → Bool} {l : List Char}
    (h : ∀ c, l.head? = some c → p c = false) : l.dropWhile p = l := by
  match l with
  | [] => rfl
  | a :: t =>
    have := h a (by simp)
    rw [List.dropWhile_cons_of_neg (by simp [this])]

theorem pyStrip_subset {l : List Char} {c : Char} (h : c ∈ pyStrip l) :
    c ∈ l := by
  unfold pyStrip at h
  rw [List.mem_reverse] at h
  have h1 := (List.dropWhile_suffix pyIsSpace).subset h
  rw [List.mem_reverse] at h1
  exact (List.dropWhile_suffix pyIsSpace).subset h1

theorem pyStrip_head {l : List Char} :
    ∀ c, (pyStrip l).head? = some c → pyIsSpace c = false := by
  intro c hc
  unfold pyStrip at hc
  rw [List.head?_reverse] at hc
  have hne : (l.dropWhile pyIsSpace).reverse.dropWhile pyIsSpace ≠ [] := by
    intro h0
    rw [h0] at hc
    simp at hc
  rw [getLast?_dropWhile hne, List.getLast?_reverse] at hc
  exact head?_dropWhile hc

theorem pyStrip_last {l : List Char} :
    ∀ c, (pyStrip l).getLast? = some c → pyIsSpace c = false := by
  intro c hc
  unfold pyStrip at hc
  rw [List.getLast?_reverse] at hc
  exact head?_dropWhile hc

theorem pyStrip_eq_self {l : List Char}
    (hh : ∀ c, l.head? = some c → pyIsSpace c = false)
    (hl : ∀ c, l.getLast? = some c → pyIsSpace c = false) :
    pyStrip l = l := by
  unfold pyStrip
  rw [dropWhile_eq_self hh]
  rw [dropWhile_eq_self (by simpa [List.head?_reverse] using hl)]
  exact List.reverse_reverse l

theorem pyStrip_length (l : List Char) : (pyStrip l).length ≤ l.length := by
  unfold pyStrip
  rw [List.length_reverse]
  calc ((l.dropWhile pyIsSpace).reverse.dropWhile pyIsSpace).length
      ≤ (l.dropWhile pyIsSpace).reverse.length :=
        (List.dropWhile_suffix pyIsSpace).sublist.length_le
    _ = (l.dropWhile pyIsSpace).length := List.length_reverse _
    _ ≤ l.length := (List.dropWhile_suffix pyIsSpace).sublist.length_le

theorem clean_text_fixed {l : List Char} (h : CleanNF l) :
    clean_text l = l := by
  obtain ⟨hkeep, hws, hch, hh, hl⟩ := h
  unfold clean_text
  by_cases hnil : l = []
  · simp [hnil]
  · rw [if_neg hnil, pyStrip_eq_self hh hl, collapseWs_eq_self hws hch,
      List.filter_eq_self.mpr hkeep]

theorem clean_text_mem_keep {l : List Char} {c : Char}
    (h : c ∈ clean_text l) : keepChar c = true := by
  unfold clean_text at h
  by_cases hnil : l = []
  · simp [hnil] at h
  · rw [if_neg hnil] at h
    exact (List.mem_filter.mp h).2

theorem clean_text_nf (l : List Char) :
    CleanNF (clean_text (clean_text l)) := by
  generalize hM : clean_text l = M
  by_cases hm : M = []
  · subst hm
    refine ⟨?_, ?_, ?_, ?_, ?_⟩ <;> simp [clean_text, NoAdjWs]
  · have hkeepM : ∀ c ∈ M, keepChar c = true := by
      intro c hc
      exact clean_text_mem_keep (l := l) (by rw [hM]; exact hc)
    have hkeepall : ∀ c ∈ collapseWs (pyStrip M), keepChar c = true := by
      intro c hc
      rcases collapseWs_mem hc with h' | h'
      · subst h'; decide
      · exact hkeepM _ (pyStrip_subset h')
    have hrw : clean_text M = collapseWs (pyStrip M) := by
      unfold clean_text
      rw [if_neg hm, List.filter_eq_self.mpr hkeepall]
    rw [hrw]
    refine ⟨hkeepall, ?_, collapseWs_chain _, ?_, ?_⟩
    · intro c hc hws
      exact collapseWs_ws_eq_space hc hws
    · intro c hc
      cases hps : pyStrip M with
      | nil =>
        rw [hps] at hc
        simp [collapseWs] at hc
      | cons d t =>
        have hz : (pyStrip M).head? = some d := by rw [hps]; rfl
        have hd : pyIsSpace d = false := pyStrip_head d hz
        rw [hps] at hc
        rw [hps] at hz
        rw [collapseWs_head hz hd] at hc
        simp only [Option.some_inj] at hc
        subst hc
        exact hd
    · exact collapseWs_last pyStrip_last

/-! ### Generic helpers for the remaining claims -/

theorem find?_first {α : Type} (p : α → Bool) :
    ∀ (l : List α) (i : Nat) (hi : i < l.length),
      p (l.get ⟨i, hi⟩) = true →
      ∃ k, ∃ hk : k < l.length, k ≤ i ∧ p (l.get ⟨k, hk⟩) = true ∧
        (∀ j (hj : j < l.length), j < k → p (l.get ⟨j, hj⟩) = false) ∧
        l.find? p = some (l.get ⟨k, hk⟩)
  | [], i, hi, _ => absurd hi (by simp)
  | a :: t, i, hi, hp => by
    by_cases ha : p a
    · refine ⟨0, by simp, Nat.zero_le i, by simpa using ha, ?_, ?_⟩
      · intro j hj hj0
        exact absurd hj0 (Nat.not_lt_zero j)
      · rw [List.find?_cons_of_pos _ ha]
        rfl
    · match i with
      | 0 => exact absurd hp (by simpa using ha)
      | i' + 1 =>
        have hi' : i' < t.length := Nat.lt_of_succ_lt_succ hi
        obtain ⟨k, hk, hki, hpk, hmin, hfind⟩ := find?_first p t i' hi' hp
        refine ⟨k + 1, Nat.succ_lt_succ hk, Nat.succ_le_succ hki, hpk, ?_, ?_⟩
        · intro j hj hjk
          match j with
          | 0 => exact (by simpa using ha)
          | j' + 1 =>
            exact hmin j' (Nat.lt_of_succ_lt_succ hj) (Nat.lt_of_succ_lt_succ hjk)
        · rw [List.find?_cons_of_neg _ ha, hfind]
          rfl

theorem mapM_error {α β : Type} (f : α → Except (List Char) β) :
    ∀ (l : List α) (a : α), a ∈ l → (∃ e, f a = Except.error e) →
      ∃ e, l.mapM f = Except.error e
  | [], a, ha, _ => absurd ha (by simp)
  | b :: t, a, ha, ⟨e, he⟩ => by
    rw [List.mapM_cons]
    rcases List.mem_cons.mp ha with h | h
    · subst h
      rw [he]
      exact ⟨e, rfl⟩
    · cases hb : f b with
      | error e' => exact ⟨e', rfl⟩
      | ok v =>
        obtain ⟨e2, he2⟩ := mapM_error f t a h ⟨e, he⟩
        rw [he2]
        exact ⟨e2, rfl⟩

theorem countValues_sum (xs : List (List Char)) :
    ((countValues xs).map Prod.snd).sum = xs.length := by
  unfold countValues
  rw [List.map_map]
  have key := List.sum_map_count_dedup_eq_length (α := List Char) xs
  rw [← key]
  congr 1
  apply List.map_congr_left
  intro v hv
  show xs.countP (fun a => a == v) = xs.countP (fun a => decide (a = v))
  apply List.countP_congr
  intro a _
  by_cases h : a = v <;> simp [beq_iff_eq, h]

theorem process_singleton (client : SentimentClient) (now : List Char)
    (m : RawMessage) :
    process_messages client now [m]
      = (build_record client now m).map (fun r => [r]) := by
  cases h : build_record client now m with
  | error e =>
    show List.mapM _ [m] = _
    rw [List.mapM_cons, h]
    rfl
  | ok r =>
    show List.mapM _ [m] = _
    rw [List.mapM_cons, h]
    rfl

/-! ### The claims -/

/-- C1 fails as stated: on the scenario input
`[message_id "1", author "Anna", text "Hello, how are you? http://x.com",
timestamp "2024-01-15T14:30:00"]` the single produced record has category
Вопросы (Questions), not Ссылки/Медиа (Links/Media): the question mark in
the text matches the Questions keyword list, which is declared before
Ссылки/Медиа in the category priority order. -/
theorem c1_category_counterexample :
    (process_messages none now0 [scenarioMsg]).map
        (List.map ProcessedRecord.category) = Except.ok ["Вопросы".data] ∧
    ("Вопросы".data : List Char) ≠ "Ссылки/Медиа".data :=
  ⟨rfl, by decide⟩

/-- C1 (amended): for the single-message scenario input, `process_messages`
produces exactly one record whose date is 2024-01-15, hour is 14 and
weekday is Monday, and whose category is Вопросы (Questions), per the
declared category priority order (the "?" match on Questions precedes the
"http" match on Ссылки/Медиа). -/
theorem c1_scenario_record :
    ∃ r : ProcessedRecord,
      process_messages none now0 [scenarioMsg] = Except.ok [r] ∧
      r.date = "2024-01-15".data ∧ r.hour = 14 ∧
      r.day_of_week = "Monday".data ∧ r.category = "Вопросы".data := by
  refine ⟨_, rfl, ?_, ?_, ?_, ?_⟩ <;> rfl

/-- C2 fails as stated: `clean_text` is not idempotent.  On "< a" the
disallowed "<" is removed after whitespace was collapsed, leaving a
leading space that a second application then strips. -/
theorem c2_not_idempotent :
    clean_text (clean_text "< a".data) ≠ clean_text "< a".data := by decide

/-- C2 (amended): two applications of `clean_text` reach a fixed point —
for every string s, `clean_text` of `clean_text (clean_text s)` equals
`clean_text (clean_text s)` (idempotence holds from the second
application on, not from the first). -/
theorem c2_twice_idempotent (s : List Char) :
    clean_text (clean_text (clean_text s)) = clean_text (clean_text s) :=
  clean_text_fixed (clean_text_nf s)

/-- C3 fails as stated: a message with no author key is tolerated, but the
built record's author is `None`, not "Unknown" (that default is applied
upstream in `WhatsAppClient.process_message`, not in
`DataProcessor.process_messages`, whose `message.get("author")` has no
default). -/
theorem c3_author_counterexample :
    (process_messages none now0 [anonymousMsg]).map
        (List.map ProcessedRecord.author) = Except.ok [none] ∧
    (none : Option (List Char)) ≠ some "Unknown".data :=
  ⟨rfl, by decide⟩

/-- C3 (amended): missing author and text fields never cause an error in
`process_messages`: whenever the message's timestamp (or the substituted
current time) parses, the record is built, with a missing text defaulting
to the empty text and a missing author kept as `None` (not "Unknown"). -/
theorem c3_missing_fields_tolerated (client : SentimentClient)
    (now : List Char) (m : RawMessage) (dt : PyDateTime)
    (hts : fromisoformat (m.timestamp.getD now) = some dt) :
    ∃ r, process_messages client now [m] = Except.ok [r] ∧
      (m.author = none → r.author = none) ∧
      (m.text = none → r.text = [] ∧ r.original_text = []) := by
  have hb : build_record client now m = Except.ok
      { message_id := m.message_id
        author := m.author
        text := clean_text (m.text.getD [])
        original_text := m.text.getD []
        time := m.timestamp
        msg_type := m.type
        category := categorize_message (clean_text (m.text.getD []))
        keywords := List.intercalate ", ".data
          (extract_keywords (clean_text (m.text.getD [])))
        sentiment := (analyze_sentiment client (clean_text (m.text.getD []))).1
        msg_length := (clean_text (m.text.getD [])).length
        date := formatDate dt
        time_of_day := formatHM dt
        day_of_week := dayName dt
        hour := dt.hour } := by
    unfold build_record
    rw [hts]
  refine ⟨_, by rw [process_singleton, hb]; rfl, ?_, ?_⟩
  · intro h
    simpa using h
  · intro h
    simp [h, clean_text]

/-- Witness for C3 (amended) at the concrete author-less, text-less
message. -/
theorem c3_missing_fields_tolerated_witness :
    fromisoformat (anonymousMsg.timestamp.getD now0)
      = some ⟨2024, 1, 15, 14, 30, 0⟩ ∧
    ∃ r, process_messages none now0 [anonymousMsg] = Except.ok [r] ∧
      (anonymousMsg.author = none → r.author = none) ∧
      (anonymousMsg.text = none → r.text = [] ∧ r.original_text = []) :=
  ⟨rfl, c3_missing_fields_tolerated none now0 anonymousMsg _ rfl⟩

/-- C4: when the lower-cased text matches the keyword list of the category
at position i, the returned category is the first matching one in the
declared order (some position k ≤ i, with no match strictly before k);
in particular "купить? сколько стоит", which matches both the Sales and
the Questions keywords, is classified Продажи/Реклама because Sales is
declared first. -/
theorem c4_first_category_wins (text : List Char) (i : Nat)
    (hi : i < categories.length)
    (hmatch : catMatches (text.map pyToLower) (categories.get ⟨i, hi⟩) = true) :
    (∃ k, ∃ hk : k < categories.length, k ≤ i ∧
      catMatches (text.map pyToLower) (categories.get ⟨k, hk⟩) = true ∧
      (∀ j (hj : j < categories.length), j < k →
        catMatches (text.map pyToLower) (categories.get ⟨j, hj⟩) = false) ∧
      categorize_message text = (categories.get ⟨k, hk⟩).1) ∧
    categorize_message "купить? сколько стоит".data = "Продажи/Реклама".data := by
  constructor
  · obtain ⟨k, hk, hki, hpk, hmin, hfind⟩ :=
      find?_first (catMatches (text.map pyToLower)) categories i hi hmatch
    refine ⟨k, hk, hki, hpk, hmin, ?_⟩
    show (match categories.find? (catMatches (text.map pyToLower)) with
      | some p => p.1
      | none => "Другое".data) = (categories.get ⟨k, hk⟩).1
    rw [hfind]
  · rfl

/-- Witness for C4 at the concrete two-category text (Sales is the
category at position 0). -/
theorem c4_first_category_wins_witness :
    (catMatches ("купить? сколько стоит".data.map pyToLower)
      (categories.get ⟨0, by decide⟩) = true) ∧
    ((∃ k, ∃ hk : k < categories.length, k ≤ 0 ∧
      catMatches ("купить? сколько стоит".data.map pyToLower)
        (categories.get ⟨k, hk⟩) = true ∧
      (∀ j (hj : j < categories.length), j < k →
        catMatches ("купить? сколько стоит".data.map pyToLower)
          (categories.get ⟨j, hj⟩) = false) ∧
      categorize_message "купить? сколько стоит".data
        = (categories.get ⟨k, hk⟩).1) ∧
    categorize_message "купить? сколько стоит".data
      = "Продажи/Реклама".data) :=
  ⟨by decide, c4_first_category_wins "купить? сколько стоит".data 0
    (by decide) (by decide)⟩

/-- C5: with no OpenAI client configured, `analyze_sentiment` returns the
Не определено (Undetermined) label for every text and issues no external
request. -/
theorem c5_unconfigured_sentiment (text : List Char) :
    analyze_sentiment none text = ("Не определено".data, 0) := rfl

/-- C6: with a client configured, a raised exception yields Не определено
(Undetermined) and a response whose stripped content is not one of the
three labels yields Нейтральная (Neutral); in both cases
`analyze_sentiment` returns a value rather than propagating an error. -/
theorem c6_configured_fallbacks
    (f g : List Char → Except (List Char) (List Char))
    (text e r : List Char)
    (herr : f text = Except.error e)
    (hok : g text = Except.ok r)
    (hlab : sentimentLabels.contains (pyStrip r) = false) :
    (analyze_sentiment (some f) text).1 = "Не определено".data ∧
    (analyze_sentiment (some g) text).1 = "Нейтральная".data := by
  constructor
  · simp [analyze_sentiment, herr]
  · simp only [analyze_sentiment, hok, hlab]
    rfl

/-- Witness for C6 at a raising oracle and an off-label oracle. -/
theorem c6_configured_fallbacks_witness :
    raisingClient "hi".data = Except.error "APIConnectionError".data ∧
    chattyClient "hi".data = Except.ok " Позитивная, я думаю ".data ∧
    sentimentLabels.contains (pyStrip " Позитивная, я думаю ".data) = false ∧
    ((analyze_sentiment (some raisingClient) "hi".data).1
        = "Не определено".data ∧
      (analyze_sentiment (some chattyClient) "hi".data).1
        = "Нейтральная".data) :=
  ⟨rfl, rfl, by decide,
    c6_configured_fallbacks raisingClient chattyClient "hi".data _ _
      rfl rfl (by decide)⟩

/-- C7: if any message of the batch carries a present but unparseable
timestamp string, `process_messages` fails with an error and produces no
records at all. -/
theorem c7_unparseable_timestamp_aborts (client : SentimentClient)
    (now : List Char) (messages : List RawMessage) (m : RawMessage)
    (ts : List Char) (hm : m ∈ messages) (hts : m.timestamp = some ts)
    (hbad : fromisoformat ts = none) :
    ∃ e, process_messages client now messages = Except.error e := by
  apply mapM_error (build_record client now) messages m hm
  unfold build_record
  rw [hts]
  show (∃ e, (match fromisoformat ts with
    | none => Except.error "ValueError: Invalid isoformat string".data
    | some dt => Except.ok _) = Except.error e)
  rw [hbad]
  exact ⟨_, rfl⟩

/-- Witness for C7 at a concrete batch whose second message carries the
unparseable timestamp "yesterday evening". -/
theorem c7_unparseable_timestamp_aborts_witness :
    badTsMsg ∈ [scenarioMsg, badTsMsg] ∧
    badTsMsg.timestamp = some "yesterday evening".data ∧
    fromisoformat "yesterday evening".data = none ∧
    ∃ e, process_messages none now0 [scenarioMsg, badTsMsg]
      = Except.error e :=
  ⟨by simp, rfl, rfl,
    c7_unparseable_timestamp_aborts none now0 [scenarioMsg, badTsMsg]
      badTsMsg "yesterday evening".data (by simp) rfl rfl⟩

/-- C8: `clean_text` never lengthens its input. -/
theorem c8_clean_text_length (s : List Char) :
    (clean_text s).length ≤ s.length := by
  unfold clean_text
  by_cases h : s = []
  · simp [h]
  · rw [if_neg h]
    calc ((collapseWs (pyStrip s)).filter keepChar).length
        ≤ (collapseWs (pyStrip s)).length := List.length_filter_le _ _
      _ ≤ (pyStrip s).length := collapseWs_length _
      _ ≤ s.length := pyStrip_length s

/-- C9: `extract_keywords` always returns at most 10 pairwise-distinct
keywords. -/
theorem c9_keywords_bound (text : List Char) :
    (extract_keywords text).Nodup ∧ (extract_keywords text).length ≤ 10 := by
  unfold extract_keywords
  constructor
  · exact List.nodup_dedup _
  · calc _ ≤ _ := (List.dedup_sublist _).length_le
      _ ≤ 10 := List.length_take_le 10 _

/-- C10: for a non-empty record collection, the summary's total equals the
number of records, and both the category counts and the sentiment counts
sum to that total. -/
theorem c10_summary_consistent (records : List ProcessedRecord)
    (hne : records ≠ []) :
    ∃ s, generate_summary records = some s ∧
      s.total_messages = records.length ∧
      ((s.category_dist.map Prod.snd).sum = records.length ∧
        (s.sentiment_dist.map Prod.snd).sum = records.length) := by
  refine ⟨_, by unfold generate_summary; rw [if_neg hne], rfl, ?_, ?_⟩
  · rw [countValues_sum, List.length_map]
  · rw [countValues_sum, List.length_map]

/-- Witness for C10 at a one-record collection. -/
theorem c10_summary_consistent_witness :
    [sampleRecord] ≠ [] ∧
    ∃ s, generate_summary [sampleRecord] = some s ∧
      s.total_messages = [sampleRecord].length ∧
      ((s.category_dist.map Prod.snd).sum = [sampleRecord].length ∧
        (s.sentiment_dist.map Prod.snd).sum = [sampleRecord].length) :=
  ⟨by simp, c10_summary_consistent [sampleRecord] (by simp)⟩

end DataProcessor
